import Mathlib

/-!
Shallow embedding of the grafbase terraform provider (Go) for specification
checking.  Go strings are modelled as `List Char` (rune lists) where index
arithmetic and splitting matter, and as Lean `String` elsewhere.  Machine
integers do not occur in the modelled code paths.  Fallible Go functions
(`(T, error)` returns) are modelled with `Except`/`Option`, and run-time
panics are modelled explicitly as an outcome constructor where they can occur.
-/

namespace Grafbase

/-! ## Import-ID parsing (graph_resource.go `parseImportID`,
branch_resource.go `parseBranchImportID`, subgraph_resource.go
`parseSubgraphImportID`) -/

/-- Number of `'/'` runes in a string. -/
def slashCount : List Char → Nat
  | [] => 0
  | c :: rest => (if c = '/' then 1 else 0) + slashCount rest

/-- The rune loop of `parseImportID`: walks the runes keeping the index of the
first `'/'` seen (`found`), returning an error as soon as a second `'/'` is
met (Go: `return "", "", fmt.Errorf("invalid format: multiple slashes found")`
inside the loop). -/
def scanSlash : List Char → Option Nat → Nat → Except Unit (Option Nat)
  | [], found, _ => .ok found
  | c :: rest, found, i =>
    if c = '/' then
      match found with
      | none => scanSlash rest (some i) (i + 1)
      | some _ => .error ()
    else scanSlash rest found (i + 1)

/-- `parseImportID` from graph_resource.go: scan the runes for a unique
`'/'`; reject when there is none, more than one, or it sits at either end;
otherwise return the substrings before and after it. -/
def parseImportID (id : List Char) : Except String (List Char × List Char) :=
  match scanSlash id none 0 with
  | .error () => .error "invalid format: multiple slashes found"
  | .ok none => .error "invalid format: expected account_slug/graph_slug"
  | .ok (some i) =>
    if i = 0 ∨ i = id.length - 1 then
      .error "invalid format: expected account_slug/graph_slug"
    else
      .ok (id.take i, id.drop (i + 1))

/-- Go `strings.Split(id, "/")` for the one-rune separator `'/'`. -/
def splitSlash : List Char → List (List Char)
  | [] => [[]]
  | c :: rest =>
    if c = '/' then [] :: splitSlash rest
    else
      match splitSlash rest with
      | [] => [[c]]
      | p :: ps => (c :: p) :: ps

/-- `parseBranchImportID` (branch_resource.go, `graph_id/branch_name`
variant): split on `'/'`; exactly two non-empty parts are required. -/
def parseBranchImportID (id : List Char) : Except String (List Char × List Char) :=
  match splitSlash id with
  | [p0, p1] =>
    if p0 = [] ∨ p1 = [] then .error "invalid format: expected graph_id/branch_name"
    else .ok (p0, p1)
  | _ => .error "invalid format: expected graph_id/branch_name"

/-- `parseSubgraphImportID` (subgraph_resource.go): split on `'/'`; exactly
two non-empty parts are required. -/
def parseSubgraphImportID (id : List Char) : Except String (List Char × List Char) :=
  match splitSlash id with
  | [p0, p1] =>
    if p0 = [] ∨ p1 = [] then .error "invalid format: expected branch_id/subgraph_name"
    else .ok (p0, p1)
  | _ => .error "invalid format: expected branch_id/subgraph_name"

lemma scanSlash_cons (c : Char) (rest : List Char) (found : Option Nat) (i : Nat) :
    scanSlash (c :: rest) found i =
      if c = '/' then
        (match found with
          | none => scanSlash rest (some i) (i + 1)
          | some _ => .error ())
      else scanSlash rest found (i + 1) := rfl

lemma scanSlash_no_slash (l : List Char) (found : Option Nat) (i : Nat)
    (h : '/' ∉ l) : scanSlash l found i = .ok found := by
  induction l generalizing i with
  | nil => rfl
  | cons c rest ih =>
    rw [List.mem_cons, not_or] at h
    unfold scanSlash
    rw [if_neg (fun hc => h.1 hc.symm)]
    exact ih (i + 1) h.2

lemma scanSlash_append (a rest : List Char) (found : Option Nat) (i : Nat)
    (h : '/' ∉ a) :
    scanSlash (a ++ rest) found i = scanSlash rest found (i + a.length) := by
  induction a generalizing i with
  | nil => simp
  | cons c t ih =>
    rw [List.mem_cons, not_or] at h
    show scanSlash (c :: (t ++ rest)) found i = scanSlash rest found (i + (c :: t).length)
    have hlen : i + 1 + t.length = i + (c :: t).length := by
      simp only [List.length_cons]
      omega
    rw [scanSlash_cons, if_neg (fun hc => h.1 hc.symm), ih (i + 1) h.2, hlen]

lemma scanSlash_some_mem (l : List Char) (j i : Nat) (h : '/' ∈ l) :
    scanSlash l (some j) i = .error () := by
  induction l generalizing i with
  | nil => cases h
  | cons c rest ih =>
    unfold scanSlash
    by_cases hc : c = '/'
    · rw [if_pos hc]
    · rw [List.mem_cons] at h
      rw [if_neg hc]
      exact ih (i + 1) (h.resolve_left (fun he => hc he.symm))

lemma mem_of_slashCount_pos (l : List Char) (h : 1 ≤ slashCount l) :
    '/' ∈ l := by
  induction l with
  | nil => simp [slashCount] at h
  | cons c rest ih =>
    by_cases hc : c = '/'
    · rw [hc]; exact List.mem_cons_self _ _
    · simp only [slashCount, if_neg hc, Nat.zero_add] at h
      exact List.mem_cons_of_mem c (ih h)

lemma scanSlash_multi (l : List Char) (i : Nat) (h : 2 ≤ slashCount l) :
    scanSlash l none i = .error () := by
  induction l generalizing i with
  | nil => simp [slashCount] at h
  | cons c rest ih =>
    unfold scanSlash
    by_cases hc : c = '/'
    · rw [if_pos hc]
      apply scanSlash_some_mem
      apply mem_of_slashCount_pos
      simp only [slashCount, if_pos hc] at h
      omega
    · rw [if_neg hc]
      apply ih
      simp only [slashCount, if_neg hc, Nat.zero_add] at h
      exact h

lemma parseImportID_decomp (a b : List Char) (ha : '/' ∉ a) (hb : '/' ∉ b) :
    parseImportID (a ++ '/' :: b) =
      if a = [] ∨ b = [] then
        .error "invalid format: expected account_slug/graph_slug"
      else .ok (a, b) := by
  unfold parseImportID
  rw [scanSlash_append a ('/' :: b) none 0 ha]
  show (match scanSlash ('/' :: b) none (0 + a.length) with
    | .error () => _ | .ok none => _ | .ok (some i) => _) = _
  unfold scanSlash
  rw [if_pos rfl, scanSlash_no_slash b _ _ hb]
  show (if 0 + a.length = 0 ∨ 0 + a.length = (a ++ '/' :: b).length - 1 then _
      else Except.ok ((a ++ '/' :: b).take (0 + a.length),
        (a ++ '/' :: b).drop (0 + a.length + 1))) = _
  have hlen : (a ++ '/' :: b).length = a.length + (b.length + 1) := by simp
  have hcond : (0 + a.length = 0 ∨ 0 + a.length = (a ++ '/' :: b).length - 1)
      ↔ (a = [] ∨ b = []) := by
    rw [hlen]
    constructor
    · rintro (h | h)
      · left; exact List.eq_nil_of_length_eq_zero (by omega)
      · right; exact List.eq_nil_of_length_eq_zero (by omega)
    · rintro (h | h)
      · left; simp [h]
      · right; simp [h]
  by_cases hc : a = [] ∨ b = []
  · rw [if_pos (hcond.mpr hc), if_pos hc]
  · rw [if_neg (fun h => hc (hcond.mp h)), if_neg hc]
    have htake : (a ++ '/' :: b).take (0 + a.length) = a := by
      simp [List.take_left']
    have hdrop : (a ++ '/' :: b).drop (0 + a.length + 1) = b := by
      have : (a ++ '/' :: b).drop (0 + a.length) = '/' :: b := by
        simp [List.drop_left']
      rw [show 0 + a.length + 1 = (0 + a.length) + 1 from rfl,
        ← List.drop_drop, this]
      rfl
    rw [htake, hdrop]

lemma splitSlash_no_slash (s : List Char) (h : '/' ∉ s) :
    splitSlash s = [s] := by
  induction s with
  | nil => rfl
  | cons c rest ih =>
    rw [List.mem_cons, not_or] at h
    unfold splitSlash
    rw [if_neg (fun hc => h.1 hc.symm), ih h.2]

lemma splitSlash_decomp (a b : List Char) (ha : '/' ∉ a) :
    splitSlash (a ++ '/' :: b) = a :: splitSlash b := by
  induction a with
  | nil =>
    show splitSlash ('/' :: b) = [] :: splitSlash b
    conv_lhs => rw [splitSlash]
    rw [if_pos rfl]
  | cons c t ih =>
    rw [List.mem_cons, not_or] at ha
    show splitSlash (c :: (t ++ '/' :: b)) = (c :: t) :: splitSlash b
    conv_lhs => rw [splitSlash]
    rw [if_neg (fun hc => ha.1 hc.symm), ih ha.2]

lemma splitSlash_ne_nil (s : List Char) : splitSlash s ≠ [] := by
  cases s with
  | nil => simp [splitSlash]
  | cons c rest =>
    unfold splitSlash
    by_cases hc : c = '/'
    · simp [hc]
    · rw [if_neg hc]
      cases h : splitSlash rest with
      | nil => simp
      | cons p ps => simp

lemma splitSlash_length (s : List Char) :
    (splitSlash s).length = slashCount s + 1 := by
  induction s with
  | nil => rfl
  | cons c rest ih =>
    unfold splitSlash
    by_cases hc : c = '/'
    · rw [if_pos hc]
      simp only [slashCount, if_pos hc, List.length_cons]
      omega
    · rw [if_neg hc]
      cases h : splitSlash rest with
      | nil => exact absurd h (splitSlash_ne_nil rest)
      | cons p ps =>
        rw [h] at ih
        simp only [slashCount, if_neg hc, List.length_cons, Nat.zero_add] at ih ⊢
        omega

lemma slashCount_pos_of_mem (l : List Char) (h : '/' ∈ l) :
    1 ≤ slashCount l := by
  induction l with
  | nil => cases h
  | cons c rest ih =>
    rw [List.mem_cons] at h
    by_cases hc : c = '/'
    · simp [slashCount, hc]
    · simp only [slashCount, if_neg hc, Nat.zero_add]
      exact ih (h.resolve_left (fun he => hc he.symm))

lemma not_mem_of_slashCount_zero (l : List Char) (h : slashCount l = 0) :
    '/' ∉ l := fun hm => by
  have := slashCount_pos_of_mem l hm
  omega

lemma parseBranchImportID_decomp (a b : List Char) (ha : '/' ∉ a) (hb : '/' ∉ b) :
    parseBranchImportID (a ++ '/' :: b) =
      if a = [] ∨ b = [] then
        .error "invalid format: expected graph_id/branch_name"
      else .ok (a, b) := by
  unfold parseBranchImportID
  rw [splitSlash_decomp a b ha, splitSlash_no_slash b hb]

lemma parseSubgraphImportID_decomp (a b : List Char) (ha : '/' ∉ a) (hb : '/' ∉ b) :
    parseSubgraphImportID (a ++ '/' :: b) =
      if a = [] ∨ b = [] then
        .error "invalid format: expected branch_id/subgraph_name"
      else .ok (a, b) := by
  unfold parseSubgraphImportID
  rw [splitSlash_decomp a b ha, splitSlash_no_slash b hb]

lemma parseImportID_not_one (s : List Char) (h : slashCount s ≠ 1) :
    ∃ e, parseImportID s = .error e := by
  unfold parseImportID
  rcases Nat.lt_or_ge (slashCount s) 2 with hlt | hge
  · have h0 : slashCount s = 0 := by omega
    rw [scanSlash_no_slash s none 0 (not_mem_of_slashCount_zero s h0)]
    exact ⟨_, rfl⟩
  · rw [scanSlash_multi s 0 hge]
    exact ⟨_, rfl⟩

lemma parseBranchImportID_not_one (s : List Char) (h : slashCount s ≠ 1) :
    parseBranchImportID s = .error "invalid format: expected graph_id/branch_name" := by
  have hlen := splitSlash_length s
  unfold parseBranchImportID
  cases h0 : splitSlash s with
  | nil => rfl
  | cons p0 rest =>
    cases rest with
    | nil => rfl
    | cons p1 rest2 =>
      cases rest2 with
      | nil =>
        exfalso
        rw [h0] at hlen
        simp only [List.length_cons, List.length_nil] at hlen
        omega
      | cons p2 rest3 => rfl

lemma parseSubgraphImportID_not_one (s : List Char) (h : slashCount s ≠ 1) :
    parseSubgraphImportID s = .error "invalid format: expected branch_id/subgraph_name" := by
  have hlen := splitSlash_length s
  unfold parseSubgraphImportID
  cases h0 : splitSlash s with
  | nil => rfl
  | cons p0 rest =>
    cases rest with
    | nil => rfl
    | cons p1 rest2 =>
      cases rest2 with
      | nil =>
        exfalso
        rw [h0] at hlen
        simp only [List.length_cons, List.length_nil] at hlen
        omega
      | cons p2 rest3 => rfl

/-- C1: for every input string to `parseImportID`, `parseBranchImportID` and
`parseSubgraphImportID`: a string with exactly one `'/'` (i.e. of the shape
`a ++ "/" ++ b` with slash-free `a`, `b`) and non-empty parts on both sides
parses to exactly those two parts unchanged; a string with exactly one `'/'`
but an empty part fails; and a string with zero or at least two `'/'` runes
fails. -/
theorem importID_parsers_spec :
    (∀ a b : List Char, '/' ∉ a → '/' ∉ b → a ≠ [] → b ≠ [] →
      parseImportID (a ++ '/' :: b) = .ok (a, b) ∧
      parseBranchImportID (a ++ '/' :: b) = .ok (a, b) ∧
      parseSubgraphImportID (a ++ '/' :: b) = .ok (a, b)) ∧
    (∀ a b : List Char, '/' ∉ a → '/' ∉ b → (a = [] ∨ b = []) →
      (∃ e, parseImportID (a ++ '/' :: b) = .error e) ∧
      (∃ e, parseBranchImportID (a ++ '/' :: b) = .error e) ∧
      (∃ e, parseSubgraphImportID (a ++ '/' :: b) = .error e)) ∧
    (∀ s : List Char, slashCount s ≠ 1 →
      (∃ e, parseImportID s = .error e) ∧
      (∃ e, parseBranchImportID s = .error e) ∧
      (∃ e, parseSubgraphImportID s = .error e)) := by
  refine ⟨?_, ?_, ?_⟩
  · intro a b ha hb ha' hb'
    have hne : ¬ (a = [] ∨ b = []) := by
      rintro (h | h)
      · exact ha' h
      · exact hb' h
    refine ⟨?_, ?_, ?_⟩
    · rw [parseImportID_decomp a b ha hb, if_neg hne]
    · rw [parseBranchImportID_decomp a b ha hb, if_neg hne]
    · rw [parseSubgraphImportID_decomp a b ha hb, if_neg hne]
  · intro a b ha hb hempty
    refine ⟨⟨"invalid format: expected account_slug/graph_slug", ?_⟩,
      ⟨"invalid format: expected graph_id/branch_name", ?_⟩,
      ⟨"invalid format: expected branch_id/subgraph_name", ?_⟩⟩
    · rw [parseImportID_decomp a b ha hb, if_pos hempty]
    · rw [parseBranchImportID_decomp a b ha hb, if_pos hempty]
    · rw [parseSubgraphImportID_decomp a b ha hb, if_pos hempty]
  · intro s hs
    exact ⟨parseImportID_not_one s hs,
      ⟨_, parseBranchImportID_not_one s hs⟩,
      ⟨_, parseSubgraphImportID_not_one s hs⟩⟩

/-- C1 witness: concrete instances of each part of `importID_parsers_spec`. -/
theorem importID_parsers_spec_witness :
    parseImportID ['m', '/', 'g'] = .ok (['m'], ['g']) ∧
    (∃ e, parseSubgraphImportID ['/', 'g'] = .error e) ∧
    (∃ e, parseBranchImportID ['m', 'g'] = .error e) :=
  ⟨((importID_parsers_spec.1 ['m'] ['g'] (by decide) (by decide) (by decide)
      (by decide)).1),
   ((importID_parsers_spec.2.1 [] ['g'] (by decide) (by decide) (by decide)).2.2),
   ((importID_parsers_spec.2.2 ['m', 'g'] (by decide)).2.1)⟩

/-! ## ImportState hooks (C6): what each hook does before any network call -/

/-- Result of the local phase of an ImportState hook: either a format-error
diagnostic is reported (and no network lookup happens), or the hook proceeds
to the remote lookup with the parsed segments. -/
inductive ImportAction where
  | formatError
  | lookup2 (parent name : List Char)
  | lookup3 (accountSlug graphSlug branchName : List Char)
deriving DecidableEq

/-- GraphResource.ImportState: parse `account_slug/graph_slug`, report an
"Import Error" diagnostic on failure, otherwise look the graph up. -/
def graphImportStateStep (id : List Char) : ImportAction :=
  match parseImportID id with
  | .error _ => .formatError
  | .ok (accountSlug, graphSlug) => .lookup2 accountSlug graphSlug

/-- BranchResource.ImportState (`graph_id/branch_name` schema variant). -/
def branchImportStateStep (id : List Char) : ImportAction :=
  match parseBranchImportID id with
  | .error _ => .formatError
  | .ok (graphID, branchName) => .lookup2 graphID branchName

/-- SubgraphResource.ImportState (`branch_id/subgraph_name`). -/
def subgraphImportStateStep (id : List Char) : ImportAction :=
  match parseSubgraphImportID id with
  | .error _ => .formatError
  | .ok (branchID, subgraphName) => .lookup2 branchID subgraphName

/-- BranchResource.ImportState (`account_slug/graph_slug/branch_name` schema
variant): splits on `'/'` and checks only `len(parts) != 3` before calling
GetBranch; no emptiness check on the segments. -/
def branchImportStateTripleStep (id : List Char) : ImportAction :=
  match splitSlash id with
  | [accountSlug, graphSlug, branchName] => .lookup3 accountSlug graphSlug branchName
  | _ => .formatError

/-- C6 counterexample: the import key `"a//b"` splits into the expected three
segments for the `account_slug/graph_slug/branch_name` branch import, but its
middle segment is empty; contrary to the claim, the hook does not report a
format error and proceeds to the network lookup with the empty graph slug. -/
theorem branchImportTriple_emptySegment_counterexample :
    branchImportStateTripleStep ['a', '/', '/', 'b'] = .lookup3 ['a'] [] ['b'] ∧
    branchImportStateTripleStep ['a', '/', '/', 'b'] ≠ .formatError := by
  exact ⟨rfl, by decide⟩

lemma branchImportStateTripleStep_not_two (s : List Char)
    (h : slashCount s ≠ 2) : branchImportStateTripleStep s = .formatError := by
  have hlen := splitSlash_length s
  unfold branchImportStateTripleStep
  cases h0 : splitSlash s with
  | nil => rfl
  | cons p0 rest =>
    cases rest with
    | nil => rfl
    | cons p1 rest2 =>
      cases rest2 with
      | nil => rfl
      | cons p2 rest3 =>
        cases rest3 with
        | nil =>
          exfalso
          rw [h0] at hlen
          simp only [List.length_cons, List.length_nil] at hlen
          omega
        | cons p3 rest4 => rfl

/-- C6 amended: a segment-count mismatch is a format error (no network lookup)
for all four ImportState hooks, and an empty segment is a format error for the
three two-segment hooks; but the three-segment branch import hook checks only
the segment count, so a well-counted key with empty segments proceeds to the
network lookup. -/
theorem importHooks_formatError_amended :
    (∀ id : List Char, slashCount id ≠ 1 →
      graphImportStateStep id = .formatError ∧
      branchImportStateStep id = .formatError ∧
      subgraphImportStateStep id = .formatError) ∧
    (∀ a b : List Char, '/' ∉ a → '/' ∉ b → (a = [] ∨ b = []) →
      graphImportStateStep (a ++ '/' :: b) = .formatError ∧
      branchImportStateStep (a ++ '/' :: b) = .formatError ∧
      subgraphImportStateStep (a ++ '/' :: b) = .formatError) ∧
    (∀ id : List Char, slashCount id ≠ 2 →
      branchImportStateTripleStep id = .formatError) ∧
    (∀ a g n : List Char, '/' ∉ a → '/' ∉ g → '/' ∉ n →
      branchImportStateTripleStep (a ++ '/' :: (g ++ '/' :: n)) =
        .lookup3 a g n) := by
  refine ⟨?_, ?_, branchImportStateTripleStep_not_two, ?_⟩
  · intro id h
    obtain ⟨e1, h1⟩ := parseImportID_not_one id h
    refine ⟨?_, ?_, ?_⟩
    · unfold graphImportStateStep
      rw [h1]
    · unfold branchImportStateStep
      rw [parseBranchImportID_not_one id h]
    · unfold subgraphImportStateStep
      rw [parseSubgraphImportID_not_one id h]
  · intro a b ha hb hempty
    refine ⟨?_, ?_, ?_⟩
    · unfold graphImportStateStep
      rw [parseImportID_decomp a b ha hb, if_pos hempty]
    · unfold branchImportStateStep
      rw [parseBranchImportID_decomp a b ha hb, if_pos hempty]
    · unfold subgraphImportStateStep
      rw [parseSubgraphImportID_decomp a b ha hb, if_pos hempty]
  · intro a g n ha hg hn
    unfold branchImportStateTripleStep
    rw [splitSlash_decomp a (g ++ '/' :: n) ha, splitSlash_decomp g n hg,
      splitSlash_no_slash n hn]

/-- C6 amended witness: concrete instances of `importHooks_formatError_amended`. -/
theorem importHooks_formatError_amended_witness :
    branchImportStateTripleStep ['x'] = .formatError ∧
    graphImportStateStep ['a', 'b'] = .formatError ∧
    branchImportStateTripleStep ['a', '/', 'g', '/', 'n'] = .lookup3 ['a'] ['g'] ['n'] :=
  ⟨importHooks_formatError_amended.2.2.1 ['x'] (by decide),
   (importHooks_formatError_amended.1 ['a', 'b'] (by decide)).1,
   importHooks_formatError_amended.2.2.2 ['a'] ['g'] ['n']
     (by decide) (by decide) (by decide)⟩

/-! ## Entity shapes (internal/client, Branch/Subgraph schema variant of
part_004).  `time.Time` values are represented by their RFC3339 rendering, so
the `Format` call in the resource adapters is the identity on the stored
string. -/

/-- client.Account. -/
structure Account where
  id : String
  slug : String
  name : String
deriving DecidableEq

/-- client.Graph. -/
structure Graph where
  id : String
  slug : String
  createdAt : String
  account : Account
deriving DecidableEq

/-- client.Branch (id/name/createdAt/graph schema variant). -/
structure Branch where
  id : String
  name : String
  createdAt : String
  graph : Graph
deriving DecidableEq

/-- client.Subgraph. -/
structure Subgraph where
  id : String
  name : String
  url : String
  createdAt : String
  branch : Branch
deriving DecidableEq

/-! ## Go strings.Contains -/

/-- Go `strings.HasPrefix`: does `s` start with `seg`? -/
def hasSeg : List Char → List Char → Bool
  | _, [] => true
  | [], _ :: _ => false
  | c :: s, d :: t => c = d && hasSeg s t

/-- Go `strings.Contains`: does `s` contain `seg` as a contiguous substring? -/
def containsSeg : List Char → List Char → Bool
  | [], seg => hasSeg [] seg
  | c :: rest, seg => hasSeg (c :: rest) seg || containsSeg rest seg

/-- Go `strings.Contains` on Lean strings. -/
def goContains (s seg : String) : Bool := containsSeg s.data seg.data

/-! ## Delete hooks (C4) -/

/-- What a Delete hook does with the error returned by the client delete
call: either the record is simply dropped (success), or an error diagnostic
is raised. -/
inductive DeleteHookOutcome where
  | success
  | diagnostic (summary detail : String)
deriving DecidableEq

/-- BranchResource.Delete (account_slug/graph_slug/branch_name schema
variant): an error whose text contains "does not exist" is treated as the
branch being already deleted. -/
def branchDeleteHook (deleteErr : Option String) : DeleteHookOutcome :=
  match deleteErr with
  | none => .success
  | some msg =>
    if goContains msg "does not exist" then .success
    else .diagnostic "Client Error" ("Unable to delete branch: " ++ msg)

/-- GraphResource.Delete: every delete error becomes a diagnostic (no
"does not exist" check). -/
def graphDeleteHook (deleteErr : Option String) : DeleteHookOutcome :=
  match deleteErr with
  | none => .success
  | some msg => .diagnostic "Client Error" ("Unable to delete graph: " ++ msg)

/-- SubgraphResource.Delete: every delete error becomes a diagnostic (no
"does not exist" check). -/
def subgraphDeleteHook (deleteErr : Option String) : DeleteHookOutcome :=
  match deleteErr with
  | none => .success
  | some msg => .diagnostic "Client Error" ("Unable to delete subgraph: " ++ msg)

/-- BranchResource.Delete of the ID-keyed schema variant: also no
"does not exist" check. -/
def branchDeleteByIdHook (deleteErr : Option String) : DeleteHookOutcome :=
  match deleteErr with
  | none => .success
  | some msg => .diagnostic "Client Error" ("Unable to delete branch: " ++ msg)

/-- C4 counterexample: a delete error whose text contains "does not exist"
(as produced, e.g., by a GraphQL error message propagated through
`DeleteGraph`) is not treated as success by the graph resource's Delete hook;
it produces a diagnostic, contradicting the claim for the graph adapter. -/
theorem graphDeleteHook_doesNotExist_counterexample :
    goContains "failed to delete graph: GraphQL errors: [graph does not exist]"
      "does not exist" = true ∧
    graphDeleteHook
      (some "failed to delete graph: GraphQL errors: [graph does not exist]") ≠
      .success := by
  exact ⟨by decide, by decide⟩

/-- C4 amended: only the branch resource's Delete hook (the
account/graph/name schema variant) treats a delete error containing
"does not exist" as a successful no-op; the graph and subgraph Delete hooks
(and the ID-keyed branch variant) raise a diagnostic for every delete error.
All hooks succeed silently when the delete call returns no error. -/
theorem deleteHooks_doesNotExist_amended :
    (∀ msg : String,
      (goContains msg "does not exist" = true →
        branchDeleteHook (some msg) = .success) ∧
      (goContains msg "does not exist" = false →
        branchDeleteHook (some msg) =
          .diagnostic "Client Error" ("Unable to delete branch: " ++ msg)) ∧
      graphDeleteHook (some msg) =
        .diagnostic "Client Error" ("Unable to delete graph: " ++ msg) ∧
      subgraphDeleteHook (some msg) =
        .diagnostic "Client Error" ("Unable to delete subgraph: " ++ msg) ∧
      branchDeleteByIdHook (some msg) =
        .diagnostic "Client Error" ("Unable to delete branch: " ++ msg)) ∧
    branchDeleteHook none = .success ∧
    graphDeleteHook none = .success ∧
    subgraphDeleteHook none = .success ∧
    branchDeleteByIdHook none = .success := by
  refine ⟨?_, rfl, rfl, rfl, rfl⟩
  intro msg
  refine ⟨?_, ?_, rfl, rfl, rfl⟩
  · intro h
    simp [branchDeleteHook, h]
  · intro h
    simp [branchDeleteHook, h]

/-- C4 amended witness: concrete instances of
`deleteHooks_doesNotExist_amended`. -/
theorem deleteHooks_doesNotExist_amended_witness :
    branchDeleteHook (some "branch does not exist") = .success ∧
    branchDeleteHook (some "network error") =
      .diagnostic "Client Error" "Unable to delete branch: network error" :=
  ⟨(deleteHooks_doesNotExist_amended.1 "branch does not exist").1 (by decide),
   (deleteHooks_doesNotExist_amended.1 "network error").2.1 (by decide)⟩

/-! ## Read hooks (C5) -/

/-- GraphResourceModel (tfsdk state record). -/
structure GraphResourceModel where
  id : String
  accountSlug : String
  slug : String
  createdAt : String
deriving DecidableEq

/-- BranchResourceModel (graph_id schema variant). -/
structure BranchResourceModel where
  id : String
  graphId : String
  name : String
  createdAt : String
deriving DecidableEq

/-- SubgraphResourceModel. -/
structure SubgraphResourceModel where
  id : String
  branchId : String
  name : String
  url : String
  createdAt : String
deriving DecidableEq

/-- What a Read hook does with the lookup result: drop the record from state
(no error), raise a diagnostic (state untouched), or overwrite the state
record. -/
inductive ReadHookOutcome (σ : Type) where
  | removeResource
  | diagnostic (summary detail : String)
  | setState (s : σ)
deriving DecidableEq

/-- GraphResource.Read: `GetGraph` errors equal to "graph not found" remove
the record; other errors are diagnostics; on success the computed fields
(id, created_at) are overwritten from the fetched graph. -/
def graphReadHook (data : GraphResourceModel) (lookup : Except String Graph) :
    ReadHookOutcome GraphResourceModel :=
  match lookup with
  | .error msg =>
    if msg = "graph not found" then .removeResource
    else .diagnostic "Client Error" ("Unable to read graph: " ++ msg)
  | .ok g => .setState { data with id := g.id, createdAt := g.createdAt }

/-- BranchResource.Read (graph_id schema variant). -/
def branchReadHook (data : BranchResourceModel) (lookup : Except String Branch) :
    ReadHookOutcome BranchResourceModel :=
  match lookup with
  | .error msg =>
    if msg = "branch not found" then .removeResource
    else .diagnostic "Client Error" ("Unable to read branch: " ++ msg)
  | .ok b => .setState { data with id := b.id, createdAt := b.createdAt }

/-- SubgraphResource.Read: also refreshes the url field. -/
def subgraphReadHook (data : SubgraphResourceModel)
    (lookup : Except String Subgraph) : ReadHookOutcome SubgraphResourceModel :=
  match lookup with
  | .error msg =>
    if msg = "subgraph not found" then .removeResource
    else .diagnostic "Client Error" ("Unable to read subgraph: " ++ msg)
  | .ok sg =>
    .setState { data with id := sg.id, url := sg.url, createdAt := sg.createdAt }

/-- C5: each Read hook removes the record exactly on the dedicated not-found
error, raises a diagnostic (leaving the record alone) on any other error, and
on success overwrites every computed field from the looked-up entity. -/
theorem readHooks_spec :
    (∀ (data : GraphResourceModel),
      graphReadHook data (.error "graph not found") = .removeResource ∧
      (∀ msg, msg ≠ "graph not found" →
        graphReadHook data (.error msg) =
          .diagnostic "Client Error" ("Unable to read graph: " ++ msg)) ∧
      (∀ g, graphReadHook data (.ok g) =
        .setState { data with id := g.id, createdAt := g.createdAt })) ∧
    (∀ (data : BranchResourceModel),
      branchReadHook data (.error "branch not found") = .removeResource ∧
      (∀ msg, msg ≠ "branch not found" →
        branchReadHook data (.error msg) =
          .diagnostic "Client Error" ("Unable to read branch: " ++ msg)) ∧
      (∀ b, branchReadHook data (.ok b) =
        .setState { data with id := b.id, createdAt := b.createdAt })) ∧
    (∀ (data : SubgraphResourceModel),
      subgraphReadHook data (.error "subgraph not found") = .removeResource ∧
      (∀ msg, msg ≠ "subgraph not found" →
        subgraphReadHook data (.error msg) =
          .diagnostic "Client Error" ("Unable to read subgraph: " ++ msg)) ∧
      (∀ sg, subgraphReadHook data (.ok sg) =
        .setState
          { data with id := sg.id, url := sg.url, createdAt := sg.createdAt })) := by
  refine ⟨fun data => ⟨rfl, fun msg h => ?_, fun g => rfl⟩,
    fun data => ⟨rfl, fun msg h => ?_, fun b => rfl⟩,
    fun data => ⟨rfl, fun msg h => ?_, fun sg => rfl⟩⟩
  · simp [graphReadHook, h]
  · simp [branchReadHook, h]
  · simp [subgraphReadHook, h]

/-- C5 witness: concrete instances of `readHooks_spec`. -/
theorem readHooks_spec_witness :
    graphReadHook ⟨"", "acc", "g", ""⟩ (.error "graph not found") =
      .removeResource ∧
    graphReadHook ⟨"", "acc", "g", ""⟩ (.error "boom") =
      .diagnostic "Client Error" "Unable to read graph: boom" :=
  ⟨(readHooks_spec.1 ⟨"", "acc", "g", ""⟩).1,
   (readHooks_spec.1 ⟨"", "acc", "g", ""⟩).2.1 "boom" (by decide)⟩

/-! ## Update hooks (C7, C8) -/

/-- A remote call issued by a resource adapter hook. -/
inductive ClientCall where
  | createGraph (accountId graphSlug : String)
  | deleteGraph (id : String)
  | createBranch (graphId branchName : String)
  | deleteBranch (id : String)
  | createSubgraph (branchId subgraphName url : String)
  | updateSubgraph (id url : String)
  | deleteSubgraph (id : String)
deriving DecidableEq

/-- GraphResource.Update: after the plan is read (`none` models a failed
`req.Plan.Get`, which already appended its own diagnostics and returns
early), the hook unconditionally adds the "Update Not Supported" error and
issues no client call.  The first component is the list of remote calls
issued, the second the list of error diagnostics added by the hook body. -/
def graphUpdateHook (plan : Option GraphResourceModel) :
    List ClientCall × List (String × String) :=
  match plan with
  | none => ([], [])
  | some _ =>
    ([], [("Update Not Supported",
      "Graph updates are not supported. Changes to account_slug or slug require resource replacement.")])

/-- BranchResource.Update (graph_id schema variant): same shape. -/
def branchUpdateHook (plan : Option BranchResourceModel) :
    List ClientCall × List (String × String) :=
  match plan with
  | none => ([], [])
  | some _ =>
    ([], [("Update Not Supported",
      "Branch updates are not supported. Changes to graph_id or name require resource replacement.")])

/-- C7: the graph and branch Update hooks issue no remote call ever, and on
every successfully decoded plan they add exactly the explicit
"Update Not Supported" error diagnostic. -/
theorem updateHooks_notSupported :
    (∀ plan : Option GraphResourceModel, (graphUpdateHook plan).1 = []) ∧
    (∀ plan : Option BranchResourceModel, (branchUpdateHook plan).1 = []) ∧
    (∀ m : GraphResourceModel, (graphUpdateHook (some m)).2 =
      [("Update Not Supported",
        "Graph updates are not supported. Changes to account_slug or slug require resource replacement.")]) ∧
    (∀ m : BranchResourceModel, (branchUpdateHook (some m)).2 =
      [("Update Not Supported",
        "Branch updates are not supported. Changes to graph_id or name require resource replacement.")]) := by
  refine ⟨fun plan => ?_, fun plan => ?_, fun m => rfl, fun m => rfl⟩
  · cases plan with
    | none => rfl
    | some m => rfl
  · cases plan with
    | none => rfl
    | some m => rfl

/-- SubgraphResource.Update: issues a single `UpdateSubgraph` call with the
record's own id and the planned url; on success only the url field of the
state record is overwritten from the result. -/
def subgraphUpdateHook (plan : SubgraphResourceModel)
    (updateResult : Except String Subgraph) :
    List ClientCall × ReadHookOutcome SubgraphResourceModel :=
  ([ClientCall.updateSubgraph plan.id plan.url],
    match updateResult with
    | .error msg =>
      .diagnostic "Client Error" ("Unable to update subgraph: " ++ msg)
    | .ok sg => .setState { plan with url := sg.url })

/-- C8: the subgraph Update hook issues exactly one remote call — an
UpdateSubgraph with the record's id and the planned url — and in particular
no Delete or Create call; on success exactly the url field of the state
record is overwritten from the result (id, branch_id, name and created_at
keep their planned values). -/
theorem subgraphUpdateHook_spec :
    ∀ (plan : SubgraphResourceModel) (r : Except String Subgraph),
      (subgraphUpdateHook plan r).1 =
        [ClientCall.updateSubgraph plan.id plan.url] ∧
      (∀ c ∈ (subgraphUpdateHook plan r).1,
        (∀ i, c ≠ ClientCall.deleteSubgraph i) ∧
        (∀ b n u, c ≠ ClientCall.createSubgraph b n u)) ∧
      (∀ sg, r = .ok sg → (subgraphUpdateHook plan r).2 =
        .setState ⟨plan.id, plan.branchId, plan.name, sg.url, plan.createdAt⟩) := by
  intro plan r
  refine ⟨rfl, ?_, ?_⟩
  · intro c hc
    have hc' : c ∈ [ClientCall.updateSubgraph plan.id plan.url] := hc
    rw [List.mem_singleton] at hc'
    subst hc'
    constructor
    · intro i h
      cases h
    · intro b n u h
      cases h
  · intro sg hr
    subst hr
    rfl

/-- C8 witness: a concrete instance of `subgraphUpdateHook_spec`. -/
theorem subgraphUpdateHook_spec_witness :
    (subgraphUpdateHook ⟨"sg1", "br1", "users", "http://old", "t0"⟩
      (.ok ⟨"sg1", "users", "http://new", "t0", ⟨"br1", "main", "t0",
        ⟨"g1", "api", "t0", ⟨"a1", "acme", "Acme"⟩⟩⟩⟩)).2 =
    .setState ⟨"sg1", "br1", "users", "http://new", "t0"⟩ :=
  (subgraphUpdateHook_spec ⟨"sg1", "br1", "users", "http://old", "t0"⟩
    (.ok ⟨"sg1", "users", "http://new", "t0", ⟨"br1", "main", "t0",
      ⟨"g1", "api", "t0", ⟨"a1", "acme", "Acme"⟩⟩⟩⟩)).2.2
    ⟨"sg1", "users", "http://new", "t0", ⟨"br1", "main", "t0",
      ⟨"g1", "api", "t0", ⟨"a1", "acme", "Acme"⟩⟩⟩⟩ rfl

/-! ## Provider configuration (C9) -/

/-- client.NewClient's stored key (the handle handed to resources). -/
structure ClientHandle where
  apiKey : String
deriving DecidableEq

/-- Result of GrafbaseProvider.Configure: either a configuration-error
diagnostic (no client is handed to any resource) or a configured client. -/
inductive ConfigureOutcome where
  | configError (summary : String)
  | configured (c : ClientHandle)
deriving DecidableEq

/-- GrafbaseProvider.Configure: a null config value falls back to the
GRAFBASE_API_KEY environment variable; an empty resulting key is a hard
configuration error, otherwise `client.NewClient(apiKey)` is stored in
ResourceData/DataSourceData. -/
def providerConfigure (configAPIKey : Option String) (envAPIKey : String) :
    ConfigureOutcome :=
  let apiKey := match configAPIKey with
    | none => envAPIKey
    | some k => k
  if apiKey = "" then .configError "Unable to find API key"
  else .configured { apiKey := apiKey }

/-- C9: the key used is the explicitly configured value when one is
supplied, otherwise the environment variable; a configuration that yields an
empty key is a hard error and no client is produced. -/
theorem providerConfigure_spec :
    ∀ (cfg : Option String) (env : String),
      (∀ k, cfg = some k → k ≠ "" →
        providerConfigure cfg env = .configured ⟨k⟩) ∧
      (cfg = none → env ≠ "" → providerConfigure cfg env = .configured ⟨env⟩) ∧
      (cfg = none → env = "" →
        providerConfigure cfg env = .configError "Unable to find API key") ∧
      (cfg = some "" →
        providerConfigure cfg env = .configError "Unable to find API key") := by
  intro cfg env
  refine ⟨?_, ?_, ?_, ?_⟩
  · intro k hk hne
    subst hk
    unfold providerConfigure
    rw [if_neg hne]
  · intro hc hne
    subst hc
    unfold providerConfigure
    rw [if_neg hne]
  · intro hc he
    subst hc
    subst he
    rfl
  · intro hc
    subst hc
    rfl

/-- C9 witness: concrete instances of `providerConfigure_spec`. -/
theorem providerConfigure_spec_witness :
    providerConfigure (some "k1") "env-key" = .configured ⟨"k1"⟩ ∧
    providerConfigure none "env-key" = .configured ⟨"env-key"⟩ ∧
    providerConfigure none "" = .configError "Unable to find API key" :=
  ⟨(providerConfigure_spec (some "k1") "env-key").1 "k1" rfl (by decide),
   (providerConfigure_spec none "env-key").2.1 rfl (by decide),
   (providerConfigure_spec none "").2.2.1 rfl rfl⟩

/-! ## JSON values and Go `encoding/json` unmarshaling

JSON numbers are modelled as integers (no claim depends on numeric values),
object fields as an association list (a duplicate key is taken at its first
occurrence; Go field matching is modelled as exact-key matching, which is what
the modelled payloads use).  `json.RawMessage` fields hold the raw `Json`
value, a missing field being `.null`.  `time.Time` fields are kept as their
RFC3339 string rendering; whether a given string parses as RFC3339 is
abstracted into the `timeOk` predicate threaded through the decoders. -/

/-- A decoded JSON value. -/
inductive Json where
  | null
  | bool (b : Bool)
  | num (n : Int)
  | str (s : String)
  | arr (elems : List Json)
  | obj (fields : List (String × Json))

/-- Look a key up in a JSON object's fields. -/
def jLookup (fields : List (String × Json)) (key : String) : Option Json :=
  match fields with
  | [] => none
  | (k, v) :: rest => if k = key then some v else jLookup rest key

/-- Go unmarshal into a `string` field: a JSON string, or null (which leaves
the zero value ""); anything else is a type error. -/
def goStr : Json → Except Unit String
  | .str s => .ok s
  | .null => .ok ""
  | _ => .error ()

/-- Go unmarshal into a `time.Time` field: a JSON string that parses as
RFC3339 (`timeOk`), or null; anything else errors. -/
def goTime (timeOk : String → Bool) : Json → Except Unit String
  | .str s => if timeOk s then .ok s else .error ()
  | .null => .ok ""
  | _ => .error ()

/-- Go unmarshal of one struct field: a missing key leaves the zero value. -/
def goField (fs : List (String × Json)) (key : String)
    (dec : Json → Except Unit α) (dflt : α) : Except Unit α :=
  match jLookup fs key with
  | none => .ok dflt
  | some v => dec v

/-- Go unmarshal into `map[string]interface \x7b\x7d`: a JSON object (or null,
leaving the nil map). -/
def decodeAnyMap : Json → Except Unit (List (String × Json))
  | .obj fs => .ok fs
  | .null => .ok []
  | _ => .error ()

/-- Go unmarshal into `[]interface \x7b\x7d`: a JSON array (or null). -/
def goAnyList : Json → Except Unit (List Json)
  | .arr xs => .ok xs
  | .null => .ok []
  | _ => .error ()

def zeroAccount : Account := ⟨"", "", ""⟩

/-- Go unmarshal into client.Account. -/
def decodeAccount : Json → Except Unit Account
  | .obj fs => do
    let id ← goField fs "id" goStr ""
    let slug ← goField fs "slug" goStr ""
    let nm ← goField fs "name" goStr ""
    return ⟨id, slug, nm⟩
  | .null => .ok zeroAccount
  | _ => .error ()

def zeroGraph : Graph := ⟨"", "", "", zeroAccount⟩

/-- Go unmarshal into client.Graph. -/
def decodeGraph (timeOk : String → Bool) : Json → Except Unit Graph
  | .obj fs => do
    let id ← goField fs "id" goStr ""
    let slug ← goField fs "slug" goStr ""
    let createdAt ← goField fs "createdAt" (goTime timeOk) ""
    let account ← goField fs "account" decodeAccount zeroAccount
    return ⟨id, slug, createdAt, account⟩
  | .null => .ok zeroGraph
  | _ => .error ()

def zeroBranch : Branch := ⟨"", "", "", zeroGraph⟩

/-- Go unmarshal into client.Branch (part_004 schema variant). -/
def decodeBranch (timeOk : String → Bool) : Json → Except Unit Branch
  | .obj fs => do
    let id ← goField fs "id" goStr ""
    let nm ← goField fs "name" goStr ""
    let createdAt ← goField fs "createdAt" (goTime timeOk) ""
    let graph ← goField fs "graph" (decodeGraph timeOk) zeroGraph
    return ⟨id, nm, createdAt, graph⟩
  | .null => .ok zeroBranch
  | _ => .error ()

def zeroSubgraph : Subgraph := ⟨"", "", "", "", zeroBranch⟩

/-- Go unmarshal into client.Subgraph. -/
def decodeSubgraph (timeOk : String → Bool) : Json → Except Unit Subgraph
  | .obj fs => do
    let id ← goField fs "id" goStr ""
    let nm ← goField fs "name" goStr ""
    let url ← goField fs "url" goStr ""
    let createdAt ← goField fs "createdAt" (goTime timeOk) ""
    let branch ← goField fs "branch" (decodeBranch timeOk) zeroBranch
    return ⟨id, nm, url, createdAt, branch⟩
  | .null => .ok zeroSubgraph
  | _ => .error ()

/-- Go unmarshal of CreateGraph's anonymous success struct
`struct \x7b Graph Graph json:"graph" \x7d`. -/
def decodeGraphCreateSuccess (timeOk : String → Bool) : Json → Except Unit Graph
  | .obj fs => goField fs "graph" (decodeGraph timeOk) zeroGraph
  | .null => .ok zeroGraph
  | _ => .error ()

/-- Go unmarshal of CreateBranch's anonymous success struct (field "branch"). -/
def decodeBranchCreateSuccess (timeOk : String → Bool) : Json → Except Unit Branch
  | .obj fs => goField fs "branch" (decodeBranch timeOk) zeroBranch
  | .null => .ok zeroBranch
  | _ => .error ()

/-- Go unmarshal of CreateSubgraph's anonymous success struct
(field "subgraph"). -/
def decodeSubgraphCreateSuccess (timeOk : String → Bool) :
    Json → Except Unit Subgraph
  | .obj fs => goField fs "subgraph" (decodeSubgraph timeOk) zeroSubgraph
  | .null => .ok zeroSubgraph
  | _ => .error ()

/-! ## Transport client (C2): the part of ExecuteQuery after the HTTP call -/

/-- client.GraphQLError. -/
structure GraphQLError where
  message : String
  path : List Json
  extensions : List (String × Json)

/-- Go unmarshal into client.GraphQLError. -/
def decodeGraphQLError : Json → Except Unit GraphQLError
  | .obj fs => do
    let message ← goField fs "message" goStr ""
    let path ← goField fs "path" goAnyList []
    let extensions ← goField fs "extensions" decodeAnyMap []
    return ⟨message, path, extensions⟩
  | .null => .ok ⟨"", [], []⟩
  | _ => .error ()

/-- Go unmarshal into `[]GraphQLError`. -/
def decodeGraphQLErrorList : Json → Except Unit (List GraphQLError)
  | .arr xs => xs.mapM decodeGraphQLError
  | .null => .ok []
  | _ => .error ()

/-- client.GraphQLResponse: `Data` is a `json.RawMessage` (the raw field
value, `.null` when absent), `Errors` the decoded errors array. -/
structure GraphQLResponse where
  data : Json
  errors : List GraphQLError

/-- Go unmarshal into client.GraphQLResponse. -/
def decodeGraphQLResponse : Json → Except Unit GraphQLResponse
  | .obj fs => do
    let errors ← goField fs "errors" decodeGraphQLErrorList []
    return ⟨(jLookup fs "data").getD .null, errors⟩
  | .null => .ok ⟨.null, []⟩
  | _ => .error ()

/-- The distinguishable error classes of ExecuteQuery's response phase. -/
inductive ExecErr where
  | httpStatus (code : Nat)
  | unmarshalFailed
  | graphqlErrors (errs : List GraphQLError)

/-- ExecuteQuery after `httpClient.Do` succeeded and the body was read:
reject a non-200 status; unmarshal the body (`none` models bytes that are not
valid JSON); and fail — returning the decoded response as well — when the
errors array is non-empty.  Mirrors the pair-return `(resp, err)`. -/
def executeQueryPhase (status : Nat) (body : Option Json) :
    Option GraphQLResponse × Option ExecErr :=
  if status ≠ 200 then (none, some (.httpStatus status))
  else
    match body with
    | none => (none, some .unmarshalFailed)
    | some j =>
      match decodeGraphQLResponse j with
      | .error _ => (none, some .unmarshalFailed)
      | .ok resp =>
        if 0 < resp.errors.length then (some resp, some (.graphqlErrors resp.errors))
        else (some resp, none)

/-- C2: a 200 response whose body decodes to a GraphQL response with a
non-empty errors array makes ExecuteQuery fail — whatever the data field
holds — while still returning the decoded response; the returned error
carries every entry of the errors array. -/
theorem executeQuery_graphqlErrors_spec :
    ∀ (body : Json) (resp : GraphQLResponse),
      decodeGraphQLResponse body = .ok resp → resp.errors ≠ [] →
      executeQueryPhase 200 (some body) =
        (some resp, some (.graphqlErrors resp.errors)) := by
  intro body resp hd hne
  have hlen : 0 < resp.errors.length := List.length_pos.mpr hne
  simp [executeQueryPhase, hd, hlen]

/-- C2 witness: a concrete 200 response with well-formed non-null data and
one GraphQL error. -/
theorem executeQuery_graphqlErrors_witness :
    executeQueryPhase 200
      (some (.obj [("data", .obj [("ping", .str "pong")]),
        ("errors", .arr [.obj [("message", .str "boom")]])])) =
      (some ⟨.obj [("ping", .str "pong")], [⟨"boom", [], []⟩]⟩,
        some (.graphqlErrors [⟨"boom", [], []⟩])) :=
  executeQuery_graphqlErrors_spec
    (.obj [("data", .obj [("ping", .str "pong")]),
      ("errors", .arr [.obj [("message", .str "boom")]])])
    ⟨.obj [("ping", .str "pong")], [⟨"boom", [], []⟩]⟩
    rfl (List.cons_ne_nil _ _)

/-! ## Create mutations (C3): decoding the tagged-union payload -/

/-- Result of decoding a create/update mutation payload: the entity on the
success shape; otherwise the generically decoded raw map (Go renders it into
the "... failed: %v" error text; the raw map — including its `__typename`
tag — is what the error carries); or a parse error when the payload is not
even an object. -/
inductive CreateDecodeResult (α : Type) where
  | ok (a : α)
  | failedVariant (raw : List (String × Json))
  | parseError

/-- The shared non-success tail of every create/update decode: unmarshal the
payload generically and surface it as the failure detail. -/
def createFallback (payload : Json) : CreateDecodeResult α :=
  match decodeAnyMap payload with
  | .ok m => .failedVariant m
  | .error _ => .parseError

/-- Client.CreateGraph's decoding of the `graphCreate` payload: try the
success shape first; a non-empty id on the nested graph confirms success;
otherwise decode generically. -/
def graphCreateDecode (timeOk : String → Bool) (payload : Json) :
    CreateDecodeResult Graph :=
  match decodeGraphCreateSuccess timeOk payload with
  | .ok g => if g.id ≠ "" then .ok g else createFallback payload
  | .error _ => createFallback payload

/-- Client.CreateBranch's decoding of the `branchCreate` payload (part_004
schema variant). -/
def branchCreateDecode (timeOk : String → Bool) (payload : Json) :
    CreateDecodeResult Branch :=
  match decodeBranchCreateSuccess timeOk payload with
  | .ok b => if b.id ≠ "" then .ok b else createFallback payload
  | .error _ => createFallback payload

/-- Client.CreateSubgraph's decoding of the `subgraphCreate` payload. -/
def subgraphCreateDecode (timeOk : String → Bool) (payload : Json) :
    CreateDecodeResult Subgraph :=
  match decodeSubgraphCreateSuccess timeOk payload with
  | .ok sg => if sg.id ≠ "" then .ok sg else createFallback payload
  | .error _ => createFallback payload

/-- The state record committed by GraphResource.Create from the client
result: populated (id and created_at overwritten from the returned graph)
only on success; `none` models "a diagnostic was raised, no state set". -/
def graphCreateHookState (plan : GraphResourceModel)
    (r : CreateDecodeResult Graph) : Option GraphResourceModel :=
  match r with
  | .ok g => some { plan with id := g.id, createdAt := g.createdAt }
  | .failedVariant _ => none
  | .parseError => none

lemma createFallback_ne_ok (payload : Json) (a : α) :
    createFallback payload ≠ CreateDecodeResult.ok a := by
  unfold createFallback
  cases h : decodeAnyMap payload with
  | ok m => intro hc; cases hc
  | error e => intro hc; cases hc

lemma createFallback_obj (fs : List (String × Json)) :
    createFallback (α := α) (.obj fs) = .failedVariant fs := rfl

lemma graphCreateDecode_of_ok (timeOk : String → Bool) (payload : Json)
    (g0 : Graph) (hs : decodeGraphCreateSuccess timeOk payload = .ok g0) :
    graphCreateDecode timeOk payload =
      if g0.id ≠ "" then .ok g0 else createFallback payload := by
  unfold graphCreateDecode
  rw [hs]

lemma graphCreateDecode_of_err (timeOk : String → Bool) (payload : Json)
    (e : Unit) (hs : decodeGraphCreateSuccess timeOk payload = .error e) :
    graphCreateDecode timeOk payload = createFallback payload := by
  unfold graphCreateDecode
  rw [hs]

lemma branchCreateDecode_of_ok (timeOk : String → Bool) (payload : Json)
    (b0 : Branch) (hs : decodeBranchCreateSuccess timeOk payload = .ok b0) :
    branchCreateDecode timeOk payload =
      if b0.id ≠ "" then .ok b0 else createFallback payload := by
  unfold branchCreateDecode
  rw [hs]

lemma branchCreateDecode_of_err (timeOk : String → Bool) (payload : Json)
    (e : Unit) (hs : decodeBranchCreateSuccess timeOk payload = .error e) :
    branchCreateDecode timeOk payload = createFallback payload := by
  unfold branchCreateDecode
  rw [hs]

lemma subgraphCreateDecode_of_ok (timeOk : String → Bool) (payload : Json)
    (s0 : Subgraph) (hs : decodeSubgraphCreateSuccess timeOk payload = .ok s0) :
    subgraphCreateDecode timeOk payload =
      if s0.id ≠ "" then .ok s0 else createFallback payload := by
  unfold subgraphCreateDecode
  rw [hs]

lemma subgraphCreateDecode_of_err (timeOk : String → Bool) (payload : Json)
    (e : Unit) (hs : decodeSubgraphCreateSuccess timeOk payload = .error e) :
    subgraphCreateDecode timeOk payload = createFallback payload := by
  unfold subgraphCreateDecode
  rw [hs]

lemma graphCreateDecode_ok_iff (timeOk : String → Bool) (payload : Json)
    (g : Graph) :
    graphCreateDecode timeOk payload = .ok g ↔
      decodeGraphCreateSuccess timeOk payload = .ok g ∧ g.id ≠ "" := by
  cases hs : decodeGraphCreateSuccess timeOk payload with
  | ok g0 =>
    rw [graphCreateDecode_of_ok timeOk payload g0 hs]
    by_cases hid : g0.id ≠ ""
    · rw [if_pos hid]
      constructor
      · intro h
        injection h with he
        subst he
        exact ⟨rfl, hid⟩
      · rintro ⟨h1, _⟩
        injection h1 with he
        rw [he]
    · rw [if_neg hid]
      constructor
      · intro h
        exact absurd h (createFallback_ne_ok payload g)
      · rintro ⟨h1, h2⟩
        injection h1 with he
        subst he
        exact absurd h2 hid
  | error e =>
    rw [graphCreateDecode_of_err timeOk payload e hs]
    constructor
    · intro h
      exact absurd h (createFallback_ne_ok payload g)
    · rintro ⟨h1, _⟩
      cases h1

lemma branchCreateDecode_ok_iff (timeOk : String → Bool) (payload : Json)
    (b : Branch) :
    branchCreateDecode timeOk payload = .ok b ↔
      decodeBranchCreateSuccess timeOk payload = .ok b ∧ b.id ≠ "" := by
  cases hs : decodeBranchCreateSuccess timeOk payload with
  | ok b0 =>
    rw [branchCreateDecode_of_ok timeOk payload b0 hs]
    by_cases hid : b0.id ≠ ""
    · rw [if_pos hid]
      constructor
      · intro h
        injection h with he
        subst he
        exact ⟨rfl, hid⟩
      · rintro ⟨h1, _⟩
        injection h1 with he
        rw [he]
    · rw [if_neg hid]
      constructor
      · intro h
        exact absurd h (createFallback_ne_ok payload b)
      · rintro ⟨h1, h2⟩
        injection h1 with he
        subst he
        exact absurd h2 hid
  | error e =>
    rw [branchCreateDecode_of_err timeOk payload e hs]
    constructor
    · intro h
      exact absurd h (createFallback_ne_ok payload b)
    · rintro ⟨h1, _⟩
      cases h1

lemma subgraphCreateDecode_ok_iff (timeOk : String → Bool) (payload : Json)
    (sg : Subgraph) :
    subgraphCreateDecode timeOk payload = .ok sg ↔
      decodeSubgraphCreateSuccess timeOk payload = .ok sg ∧ sg.id ≠ "" := by
  cases hs : decodeSubgraphCreateSuccess timeOk payload with
  | ok s0 =>
    rw [subgraphCreateDecode_of_ok timeOk payload s0 hs]
    by_cases hid : s0.id ≠ ""
    · rw [if_pos hid]
      constructor
      · intro h
        injection h with he
        subst he
        exact ⟨rfl, hid⟩
      · rintro ⟨h1, _⟩
        injection h1 with he
        rw [he]
    · rw [if_neg hid]
      constructor
      · intro h
        exact absurd h (createFallback_ne_ok payload sg)
      · rintro ⟨h1, h2⟩
        injection h1 with he
        subst he
        exact absurd h2 hid
  | error e =>
    rw [subgraphCreateDecode_of_err timeOk payload e hs]
    constructor
    · intro h
      exact absurd h (createFallback_ne_ok payload sg)
    · rintro ⟨h1, _⟩
      cases h1

lemma graphCreateDecode_failed (timeOk : String → Bool)
    (fs : List (String × Json))
    (hno : ∀ g, ¬(decodeGraphCreateSuccess timeOk (.obj fs) = .ok g ∧ g.id ≠ "")) :
    graphCreateDecode timeOk (.obj fs) = .failedVariant fs := by
  cases hs : decodeGraphCreateSuccess timeOk (.obj fs) with
  | ok g0 =>
    rw [graphCreateDecode_of_ok timeOk (.obj fs) g0 hs]
    rw [if_neg (fun hid => hno g0 ⟨hs, hid⟩)]
    exact createFallback_obj fs
  | error e =>
    rw [graphCreateDecode_of_err timeOk (.obj fs) e hs]
    exact createFallback_obj fs

lemma branchCreateDecode_failed (timeOk : String → Bool)
    (fs : List (String × Json))
    (hno : ∀ b, ¬(decodeBranchCreateSuccess timeOk (.obj fs) = .ok b ∧ b.id ≠ "")) :
    branchCreateDecode timeOk (.obj fs) = .failedVariant fs := by
  cases hs : decodeBranchCreateSuccess timeOk (.obj fs) with
  | ok b0 =>
    rw [branchCreateDecode_of_ok timeOk (.obj fs) b0 hs]
    rw [if_neg (fun hid => hno b0 ⟨hs, hid⟩)]
    exact createFallback_obj fs
  | error e =>
    rw [branchCreateDecode_of_err timeOk (.obj fs) e hs]
    exact createFallback_obj fs

lemma subgraphCreateDecode_failed (timeOk : String → Bool)
    (fs : List (String × Json))
    (hno : ∀ sg, ¬(decodeSubgraphCreateSuccess timeOk (.obj fs) = .ok sg ∧ sg.id ≠ "")) :
    subgraphCreateDecode timeOk (.obj fs) = .failedVariant fs := by
  cases hs : decodeSubgraphCreateSuccess timeOk (.obj fs) with
  | ok s0 =>
    rw [subgraphCreateDecode_of_ok timeOk (.obj fs) s0 hs]
    rw [if_neg (fun hid => hno s0 ⟨hs, hid⟩)]
    exact createFallback_obj fs
  | error e =>
    rw [subgraphCreateDecode_of_err timeOk (.obj fs) e hs]
    exact createFallback_obj fs

/-- C3: each create decode returns an entity exactly when the success-shape
decode yields one with a non-empty id (and then it is that entity, with no
error); when it does not, an object payload is decoded generically and
surfaced as the failure detail carrying the raw map (hence the variant's
`__typename` tag); and a failed create never populates the local record. -/
theorem createDecode_spec :
    ∀ (timeOk : String → Bool) (payload : Json),
      (∀ g, graphCreateDecode timeOk payload = .ok g ↔
        decodeGraphCreateSuccess timeOk payload = .ok g ∧ g.id ≠ "") ∧
      (∀ b, branchCreateDecode timeOk payload = .ok b ↔
        decodeBranchCreateSuccess timeOk payload = .ok b ∧ b.id ≠ "") ∧
      (∀ sg, subgraphCreateDecode timeOk payload = .ok sg ↔
        decodeSubgraphCreateSuccess timeOk payload = .ok sg ∧ sg.id ≠ "") ∧
      (∀ fs, payload = .obj fs →
        ((∀ g, ¬(decodeGraphCreateSuccess timeOk payload = .ok g ∧ g.id ≠ "")) →
          graphCreateDecode timeOk payload = .failedVariant fs) ∧
        ((∀ b, ¬(decodeBranchCreateSuccess timeOk payload = .ok b ∧ b.id ≠ "")) →
          branchCreateDecode timeOk payload = .failedVariant fs) ∧
        ((∀ sg, ¬(decodeSubgraphCreateSuccess timeOk payload = .ok sg ∧ sg.id ≠ "")) →
          subgraphCreateDecode timeOk payload = .failedVariant fs)) ∧
      (∀ (plan : GraphResourceModel) (r : CreateDecodeResult Graph),
        (∀ g, r ≠ .ok g) → graphCreateHookState plan r = none) := by
  intro timeOk payload
  refine ⟨graphCreateDecode_ok_iff timeOk payload,
    branchCreateDecode_ok_iff timeOk payload,
    subgraphCreateDecode_ok_iff timeOk payload, ?_, ?_⟩
  · intro fs hfs
    subst hfs
    exact ⟨graphCreateDecode_failed timeOk fs,
      branchCreateDecode_failed timeOk fs,
      subgraphCreateDecode_failed timeOk fs⟩
  · intro plan r hr
    cases r with
    | ok g => exact absurd rfl (hr g)
    | failedVariant m => rfl
    | parseError => rfl

/-- C3 witness: concrete instances of `createDecode_spec` — a successful
graph create payload is accepted, and a tagged failure variant is surfaced as
the raw map. -/
theorem createDecode_spec_witness :
    graphCreateDecode (fun _ => true)
      (.obj [("graph", .obj [("id", .str "g1"), ("slug", .str "api")])]) =
      .ok ⟨"g1", "api", "", zeroAccount⟩ ∧
    graphCreateDecode (fun _ => true)
      (.obj [("__typename", .str "SlugAlreadyExistsError")]) =
      .failedVariant [("__typename", .str "SlugAlreadyExistsError")] :=
  ⟨((createDecode_spec (fun _ => true)
        (.obj [("graph", .obj [("id", .str "g1"), ("slug", .str "api")])])).1
      ⟨"g1", "api", "", zeroAccount⟩).mpr ⟨rfl, by decide⟩,
   ((createDecode_spec (fun _ => true)
        (.obj [("__typename", .str "SlugAlreadyExistsError")])).2.2.2.1
      [("__typename", .str "SlugAlreadyExistsError")] rfl).1
     (fun g hg => by
        have h1 := hg.1
        have h2 : g = zeroGraph := by
          have : Except.ok (ε := Unit) zeroGraph = .ok g := h1
          injection this with he
          exact he.symm
        rw [h2] at hg
        exact hg.2 rfl)⟩

/-! ## Triple-keyed DeleteBranch (C10): decoding the `branchDelete` payload

client.go's `DeleteBranch` unmarshals the payload into
`map[string]interface \x7b\x7d` and then runs the unchecked type assertion
`deleteResp["__typename"].(string)`.  In Go that assertion panics when the
key is absent or its value is not a string; the panic is modelled as an
explicit outcome. -/

/-- Outcome of the `branchDelete` payload handling in the triple-keyed
`DeleteBranch`: `nil`, an error, or a run-time panic. -/
inductive DeleteBranchOutcome where
  | success
  | err (msg : String)
  | panicked
deriving DecidableEq

/-- The decode tail of the triple-keyed `Client.DeleteBranch` (the final
"branch deletion failed: %v" error's map rendering is elided from the
message). -/
def deleteBranchDecode (payload : Json) : DeleteBranchOutcome :=
  match decodeAnyMap payload with
  | .error _ => .err "failed to parse delete response"
  | .ok m =>
    match jLookup m "__typename" with
    | some (.str t) =>
      if t = "Query" then .success
      else if t = "BranchDoesNotExistError" then .err "branch does not exist"
      else if t = "CannotDeleteProductionBranchError" then
        .err "cannot delete production branch"
      else .err "branch deletion failed"
    | _ => .panicked

/-- C10: the triple-keyed DeleteBranch panics — it returns neither nil nor an
error — on a `branchDelete` object payload with no `__typename` field and on
one whose `__typename` is not a string, while a string `__typename` yields
nil or an error as claimed.  This refutes the claim's "never panics" at the
concrete inputs. -/
theorem deleteBranchDecode_panics :
    deleteBranchDecode (.obj []) = .panicked ∧
    deleteBranchDecode (.obj [("__typename", .num 1)]) = .panicked ∧
    deleteBranchDecode (.obj [("__typename", .str "Query")]) = .success ∧
    deleteBranchDecode (.obj [("__typename", .str "BranchDoesNotExistError")]) =
      .err "branch does not exist" :=
  ⟨rfl, rfl, rfl, rfl⟩

end Grafbase
